import Mathlib

/-!
# Verification of the cogito-meetings ingestion and reconciliation engine

Shallow embedding of `src/server.js` together with the schema constraints of
`src/migrations/001_initial_schema.sql`.  The repository contains two variants
of the server: a Supabase-backed one (first half of the file) and a
PostgreSQL-backed one (second half).  They are embedded as namespaces `SB`
and `PG`.  Database tables become lists of records, the database client
becomes explicit state passing, wall-clock reads (`new Date()`) become `now`
parameters, and the external transcript fetch becomes an `Option` parameter.
Fallible inserts return `Except`.
-/

/-- A row of the `blocks` table as inserted by the PostgreSQL variant of
`/api/create-bot` (name, description, block_type, metadata containing
created_by). -/
structure Block where
  block_id : Nat
  name : String
  description : String
  block_type : String
  metadata_created_by : String
deriving DecidableEq

/-- A row of the `block_meetings` table (one per session, keyed by the unique
`recall_bot_id`). -/
structure BlockMeeting where
  block_id : Nat
  recall_bot_id : String
  meeting_url : String
  status : String
  invited_by_user_id : Option Int
  full_transcript : Option String
  started_at : Nat
  ended_at : Option Nat
  created_at : Nat
  updated_at : Nat
deriving DecidableEq

/-- A row of the `block_attendees` table.  The insert in `getOrCreateAttendee`
supplies only block_id, name and story; `user_id` stays NULL and
`speaking_time_seconds` takes the schema default 0. -/
structure BlockAttendee where
  id : Nat
  block_id : Nat
  name : String
  user_id : Option Nat
  story : Option String
  speaking_time_seconds : Nat
deriving DecidableEq

/-- A row of the `block_turns` junction table: the Placement of a Turn inside
a session, carrying the ordering integer `sequence_order`. -/
structure BlockTurn where
  block_id : Nat
  turn_id : Nat
  sequence_order : Int
deriving DecidableEq

/-- An incoming websocket transcript message, as read by both variants of the
`wss.on` message handler: `text` is `none` when the field is absent from the
JSON payload (which the pg driver turns into SQL NULL), and `sequence` is the
optional sequence hint used by the Supabase variant. -/
structure TranscriptEvent where
  bot_id : String
  speaker : String
  text : Option String
  timestamp : Option String
  sequence : Option Int
deriving DecidableEq

/-- An incoming `/webhook` lifecycle notification body. -/
structure WebhookEvent where
  bot_id : Option String
  status : String
deriving DecidableEq

/-- The (block_id, name) key predicate of the unique index
`idx_block_attendees_unique` and of the SELECT in `getOrCreateAttendee`. -/
def attendeeKeyMatches (blockId : Nat) (speakerName : String) (a : BlockAttendee) : Bool :=
  a.block_id == blockId && a.name == speakerName

/-- The list of `sequence_order` values stored for a given block, in row
order: `SELECT sequence_order FROM block_turns WHERE block_id = $1`. -/
def seqOrdersFor (bts : List BlockTurn) (blockId : Nat) : List Int :=
  (bts.filter (fun bt => bt.block_id == blockId)).map (fun bt => bt.sequence_order)

/-- `SELECT COALESCE(MAX(sequence_order), 0) FROM block_turns WHERE
block_id = $1`: SQL MAX over an empty set is NULL, which COALESCE turns
into 0; otherwise it is the true maximum. -/
def maxSeqOrder (bts : List BlockTurn) (blockId : Nat) : Int :=
  match seqOrdersFor bts blockId with
  | [] => 0
  | x :: xs => xs.foldl max x

namespace PG

/-- A row of the `turns` table as inserted by the PostgreSQL variant:
`INSERT INTO turns (participant_id, content, source_type, metadata)` with
metadata `\x7b timestamp, bot_id \x7d`. -/
structure Turn where
  turn_id : Nat
  participant_id : Nat
  content : String
  source_type : String
  metadata_timestamp : String
  metadata_bot_id : String
deriving DecidableEq

/-- The PostgreSQL database state: one list per table, plus counters
standing for the uuid/BIGSERIAL generators. -/
structure DBState where
  blocks : List Block
  block_meetings : List BlockMeeting
  block_attendees : List BlockAttendee
  turns : List Turn
  block_turns : List BlockTurn
  next_block_id : Nat
  next_attendee_id : Nat
  next_turn_id : Nat
deriving DecidableEq

/-- `SELECT block_id FROM block_meetings WHERE recall_bot_id = $1` (the
`recall_bot_id` column is UNIQUE, so the first match is the only one). -/
def findMeeting (st : DBState) (botId : String) : Option BlockMeeting :=
  st.block_meetings.find? (fun m => m.recall_bot_id == botId)

/-- `SELECT * FROM block_attendees WHERE block_id = $1 AND name = $2`. -/
def findAttendee (st : DBState) (blockId : Nat) (speakerName : String) : Option BlockAttendee :=
  st.block_attendees.find? (attendeeKeyMatches blockId speakerName)

/-- `INSERT INTO block_attendees (block_id, name, story) VALUES ... RETURNING *`.
The unique index `idx_block_attendees_unique` on (block_id, name) makes the
insert fail with a duplicate-key error when a row with the same key already
exists; otherwise the row is appended with the schema defaults
(`user_id` NULL, `speaking_time_seconds` 0) and the seeded story. -/
def insertAttendeeRow (st : DBState) (blockId : Nat) (speakerName : String) :
    Except String (BlockAttendee × DBState) :=
  if st.block_attendees.any (attendeeKeyMatches blockId speakerName) then
    Except.error "duplicate key value violates unique constraint"
  else
    let a : BlockAttendee :=
      { id := st.next_attendee_id, block_id := blockId, name := speakerName,
        user_id := none, story := some (speakerName ++ " joined the meeting."),
        speaking_time_seconds := 0 }
    Except.ok (a, { st with block_attendees := st.block_attendees ++ [a],
                            next_attendee_id := st.next_attendee_id + 1 })

/-- `getOrCreateAttendee` of the PostgreSQL variant: SELECT by (block_id,
name); if a row exists return it, otherwise INSERT a new attendee (the insert
can only fail with a duplicate-key error under a concurrent interleaving,
modelled separately in `racedGetOrCreate`). -/
def getOrCreateAttendee (st : DBState) (blockId : Nat) (speakerName : String) :
    Except String (BlockAttendee × DBState) :=
  match findAttendee st blockId speakerName with
  | some a => Except.ok (a, st)
  | none => insertAttendeeRow st blockId speakerName

/-- The racing interleaving of two concurrent `getOrCreateAttendee` calls for
the same (block, name): both SELECTs run against the same initial state (both
miss or both hit), then the two INSERTs run one after the other against the
evolving state.  Components: result of call A, result of call B, final
database state. -/
def racedGetOrCreate (st : DBState) (blockId : Nat) (speakerName : String) :
    Except String BlockAttendee × Except String BlockAttendee × DBState :=
  match findAttendee st blockId speakerName with
  | some a => (Except.ok a, Except.ok a, st)
  | none =>
    match insertAttendeeRow st blockId speakerName with
    | Except.ok (a, st1) =>
      match insertAttendeeRow st1 blockId speakerName with
      | Except.ok (b, st2) => (Except.ok a, Except.ok b, st2)
      | Except.error e => (Except.ok a, Except.error e, st1)
    | Except.error e =>
      match insertAttendeeRow st blockId speakerName with
      | Except.ok (b, st1) => (Except.error e, Except.ok b, st1)
      | Except.error e2 => (Except.error e, Except.error e2, st)

/-- The PostgreSQL variant of the websocket message handler.  Look up the
meeting by bot id (drop the event when absent); get or create the attendee;
insert the turn (the `content TEXT NOT NULL` column makes the insert fail when
`text` is absent, and the catch block swallows the error, so the attendee
created before it persists); read COALESCE(MAX(sequence_order),0)+1 for the
block; insert the placement row. -/
def processTranscript (st : DBState) (ev : TranscriptEvent) (now : String) : DBState :=
  match findMeeting st ev.bot_id with
  | none => st
  | some meeting =>
    match getOrCreateAttendee st meeting.block_id ev.speaker with
    | Except.error _ => st
    | Except.ok (attendee, st1) =>
      match ev.text with
      | none => st1
      | some text =>
        let turn : Turn :=
          { turn_id := st1.next_turn_id, participant_id := attendee.id, content := text,
            source_type := "recall_bot", metadata_timestamp := ev.timestamp.getD now,
            metadata_bot_id := ev.bot_id }
        let st2 := { st1 with turns := st1.turns ++ [turn],
                              next_turn_id := st1.next_turn_id + 1 }
        let nextOrder := maxSeqOrder st2.block_turns meeting.block_id + 1
        { st2 with block_turns := st2.block_turns ++
            [{ block_id := meeting.block_id, turn_id := turn.turn_id,
               sequence_order := nextOrder }] }

/-- Sequential processing of a stream of websocket messages on one server. -/
def processAll (st : DBState) (evs : List TranscriptEvent) (now : String) : DBState :=
  evs.foldl (fun s e => processTranscript s e now) st

/-- The per-row effect of the dynamic UPDATE built by the `/webhook` handler:
rows matching the bot id get status and updated_at set, plus ended_at and
(only when the fetch succeeded) full_transcript when the status is the
terminal completed value; other rows are untouched. -/
def applyWebhookUpdate (botId : String) (newStatus : String) (now : Nat)
    (fetched : Option String) (m : BlockMeeting) : BlockMeeting :=
  if m.recall_bot_id == botId then
    if newStatus == "completed" then
      { m with status := newStatus, updated_at := now, ended_at := some now,
               full_transcript := match fetched with
                 | some t => some t
                 | none => m.full_transcript }
    else
      { m with status := newStatus, updated_at := now }
  else m

/-- The `/webhook` handler of the PostgreSQL variant.  If the event carries no
bot id nothing happens; otherwise the UPDATE touches every `block_meetings`
row whose `recall_bot_id` matches (zero rows when the bot is unknown).  The
handler always answers 200.  `fetched` is the outcome of the external
transcript fetch attempted for completed events (`none` = fetch failed, in
which case the `full_transcript` column is left out of the UPDATE). -/
def webhook (st : DBState) (ev : WebhookEvent) (now : Nat) (fetched : Option String) :
    DBState × Nat :=
  match ev.bot_id with
  | none => (st, 200)
  | some botId =>
    ({ st with block_meetings :=
        st.block_meetings.map (applyWebhookUpdate botId ev.status now fetched) }, 200)

/-- Outcome of the persistence phase of `/api/create-bot`. -/
inductive CreateBotResult where
  | ok (blockId : Nat) (botId : String)
  | error (httpStatus : Nat) (message : String)
deriving DecidableEq

/-- The persistence phase of the PostgreSQL variant of `/api/create-bot`,
entered after the external provisioning call returned `botId`: INSERT the
block, then INSERT the block_meetings row.  `meetingInsertFails` models the
meeting INSERT throwing; the outer catch then answers 500 and performs no
cleanup, so the freshly created block stays. -/
def createBotPersist (st : DBState) (botId meetingUrl : String) (clientId : Option Int)
    (meetingName : Option String) (meetingInsertFails : Bool) (now : Nat) :
    DBState × CreateBotResult :=
  let block : Block :=
    { block_id := st.next_block_id,
      name := meetingName.getD ("Meeting " ++ toString now),
      description := "Meeting from " ++ meetingUrl,
      block_type := "meeting",
      metadata_created_by := "recall_bot" }
  let st1 := { st with blocks := st.blocks ++ [block],
                       next_block_id := st.next_block_id + 1 }
  if meetingInsertFails then
    (st1, CreateBotResult.error 500 "Internal server error")
  else
    let meeting : BlockMeeting :=
      { block_id := block.block_id, recall_bot_id := botId, meeting_url := meetingUrl,
        status := "joining", invited_by_user_id := clientId, full_transcript := none,
        started_at := now, ended_at := none, created_at := now, updated_at := now }
    ({ st1 with block_meetings := st1.block_meetings ++ [meeting] },
     CreateBotResult.ok block.block_id botId)

end PG

namespace SB

/-- A row of the Supabase `turns` table as inserted by the Supabase variant:
`participant_id, turn_text, source_type, turn_timestamp, client_id`. -/
structure Turn where
  turn_id : Nat
  participant_id : Nat
  turn_text : String
  source_type : String
  turn_timestamp : String
  client_id : Nat
deriving DecidableEq

/-- A row of the Supabase `blocks` table as inserted by the Supabase variant
of `/api/create-bot` (created_by is a column there, not metadata). -/
structure SBBlock where
  block_id : Nat
  name : String
  description : String
  block_type : String
  created_by : String
deriving DecidableEq

/-- The Supabase database state. -/
structure DBState where
  blocks : List SBBlock
  block_meetings : List BlockMeeting
  block_attendees : List BlockAttendee
  turns : List Turn
  block_turns : List BlockTurn
  next_block_id : Nat
  next_attendee_id : Nat
  next_turn_id : Nat
deriving DecidableEq

/-- `.from('block_meetings').select('block_id').eq('recall_bot_id', ...)`. -/
def findMeeting (st : DBState) (botId : String) : Option BlockMeeting :=
  st.block_meetings.find? (fun m => m.recall_bot_id == botId)

/-- `.from('block_attendees').select('*').eq('block_id', ...).eq('name', ...)`. -/
def findAttendee (st : DBState) (blockId : Nat) (speakerName : String) : Option BlockAttendee :=
  st.block_attendees.find? (attendeeKeyMatches blockId speakerName)

/-- `.from('block_attendees').insert(...)` under the unique index
`idx_public_block_attendees_unique` on (block_id, name). -/
def insertAttendeeRow (st : DBState) (blockId : Nat) (speakerName : String) :
    Except String (BlockAttendee × DBState) :=
  if st.block_attendees.any (attendeeKeyMatches blockId speakerName) then
    Except.error "duplicate key value violates unique constraint"
  else
    let a : BlockAttendee :=
      { id := st.next_attendee_id, block_id := blockId, name := speakerName,
        user_id := none, story := some (speakerName ++ " joined the meeting."),
        speaking_time_seconds := 0 }
    Except.ok (a, { st with block_attendees := st.block_attendees ++ [a],
                            next_attendee_id := st.next_attendee_id + 1 })

/-- `getOrCreateAttendee` of the Supabase variant (same select-then-insert
shape as the PostgreSQL one). -/
def getOrCreateAttendee (st : DBState) (blockId : Nat) (speakerName : String) :
    Except String (BlockAttendee × DBState) :=
  match findAttendee st blockId speakerName with
  | some a => Except.ok (a, st)
  | none => insertAttendeeRow st blockId speakerName

/-- The Supabase variant of the websocket message handler.  Same dispatch as
the PostgreSQL one, but the placement takes its `sequence_order` directly from
the sequence hint of the event (`transcript.sequence || 0`, so 0 when the hint
is absent) instead of computing max+1 from the stored placements. -/
def processTranscript (st : DBState) (ev : TranscriptEvent) (now : String) : DBState :=
  match findMeeting st ev.bot_id with
  | none => st
  | some meeting =>
    match getOrCreateAttendee st meeting.block_id ev.speaker with
    | Except.error _ => st
    | Except.ok (attendee, st1) =>
      match ev.text with
      | none => st1
      | some text =>
        let turn : Turn :=
          { turn_id := st1.next_turn_id, participant_id := attendee.id, turn_text := text,
            source_type := "recall_bot", turn_timestamp := ev.timestamp.getD now,
            client_id := 1 }
        let st2 := { st1 with turns := st1.turns ++ [turn],
                              next_turn_id := st1.next_turn_id + 1 }
        { st2 with block_turns := st2.block_turns ++
            [{ block_id := meeting.block_id, turn_id := turn.turn_id,
               sequence_order := ev.sequence.getD 0 }] }

/-- Sequential processing of a stream of websocket messages (Supabase). -/
def processAll (st : DBState) (evs : List TranscriptEvent) (now : String) : DBState :=
  evs.foldl (fun s e => processTranscript s e now) st

/-- The persistence phase of the Supabase variant of `/api/create-bot`: INSERT
the block, then INSERT the block_meetings row; when the meeting insert fails
the handler deletes the block it just created (compensating delete) before
answering 500. -/
def createBotPersist (st : DBState) (botId meetingUrl : String) (clientId : Option Int)
    (meetingName : Option String) (meetingInsertFails : Bool) (now : Nat) :
    DBState × PG.CreateBotResult :=
  let block : SBBlock :=
    { block_id := st.next_block_id,
      name := meetingName.getD ("Meeting " ++ toString now),
      description := "Meeting from " ++ meetingUrl,
      block_type := "meeting",
      created_by := "recall_bot" }
  let st1 := { st with blocks := st.blocks ++ [block],
                       next_block_id := st.next_block_id + 1 }
  if meetingInsertFails then
    ({ st1 with blocks := st1.blocks.filter (fun b => ! (b.block_id == block.block_id)) },
     PG.CreateBotResult.error 500 "Failed to create meeting record")
  else
    let meeting : BlockMeeting :=
      { block_id := block.block_id, recall_bot_id := botId, meeting_url := meetingUrl,
        status := "joining", invited_by_user_id := clientId, full_transcript := none,
        started_at := now, ended_at := none, created_at := now, updated_at := now }
    ({ st1 with block_meetings := st1.block_meetings ++ [meeting] },
     PG.CreateBotResult.ok block.block_id botId)

end SB

/-! ### Concrete sample data used by witnesses and counterexamples -/

/-- A sample meeting row: session (block) 1 driven by bot "bot-1". -/
def meeting1 : BlockMeeting :=
  { block_id := 1, recall_bot_id := "bot-1", meeting_url := "https://call/abc",
    status := "joining", invited_by_user_id := some 7, full_transcript := none,
    started_at := 0, ended_at := none, created_at := 0, updated_at := 0 }

/-- A sample block row for session 1 (PostgreSQL shape). -/
def block1 : Block :=
  { block_id := 1, name := "Standup", description := "Meeting from https://call/abc",
    block_type := "meeting", metadata_created_by := "recall_bot" }

/-- A sample PostgreSQL database state holding exactly session 1 and its
meeting, with no attendees, turns or placements yet. -/
def pgSt1 : PG.DBState :=
  { blocks := [block1], block_meetings := [meeting1], block_attendees := [],
    turns := [], block_turns := [], next_block_id := 2, next_attendee_id := 1,
    next_turn_id := 1 }

/-- The same session in the Supabase-variant state. -/
def sbSt1 : SB.DBState :=
  { blocks := [{ block_id := 1, name := "Standup",
                 description := "Meeting from https://call/abc",
                 block_type := "meeting", created_by := "recall_bot" }],
    block_meetings := [meeting1], block_attendees := [],
    turns := [], block_turns := [], next_block_id := 2, next_attendee_id := 1,
    next_turn_id := 1 }

/-- A sample turn event for bot-1 with content and no sequence hint. -/
def evDana : TranscriptEvent :=
  { bot_id := "bot-1", speaker := "Dana", text := some "hello", timestamp := none,
    sequence := none }

/-- A sample turn event whose textual content is the empty string. -/
def evEmptyText : TranscriptEvent :=
  { bot_id := "bot-1", speaker := "Dana", text := some "", timestamp := none,
    sequence := none }

/-- A sample turn event whose textual content is missing altogether. -/
def evNoText : TranscriptEvent :=
  { bot_id := "bot-1", speaker := "Dana", text := none, timestamp := none,
    sequence := none }

/-- A sample lifecycle notification with a non-terminal status. -/
def evProgress : WebhookEvent := { bot_id := some "bot-1", status := "in_progress" }

/-- The empty PostgreSQL database state. -/
def pgSt0 : PG.DBState :=
  { blocks := [], block_meetings := [], block_attendees := [], turns := [],
    block_turns := [], next_block_id := 1, next_attendee_id := 1, next_turn_id := 1 }

/-- The empty Supabase database state. -/
def sbSt0 : SB.DBState :=
  { blocks := [], block_meetings := [], block_attendees := [], turns := [],
    block_turns := [], next_block_id := 1, next_attendee_id := 1, next_turn_id := 1 }

/-- The attendee row created for speaker Dana in session 1 of the sample
state. -/
def attendeeDana : BlockAttendee :=
  { id := 1, block_id := 1, name := "Dana", user_id := none,
    story := some "Dana joined the meeting.", speaking_time_seconds := 0 }

/-- The sample state after Dana was resolved once. -/
def pgStDana : PG.DBState :=
  { pgSt1 with block_attendees := [attendeeDana], next_attendee_id := 2 }

/-- All attendee rows stored for a given (session, name) key. -/
def attendeesForKey (st : PG.DBState) (blockId : Nat) (speakerName : String) :
    List BlockAttendee :=
  st.block_attendees.filter (attendeeKeyMatches blockId speakerName)

/-- Whether a transcript event placed in the given database state would
produce a placement row for the given block: its bot resolves to a meeting of
that block and its content field is present. -/
def placedForBlock (st : PG.DBState) (blockId : Nat) (ev : TranscriptEvent) : Bool :=
  match PG.findMeeting st ev.bot_id with
  | some m => m.block_id == blockId && ev.text.isSome
  | none => false

/-- Field-by-field comparison used to state the frame property of the webhook
UPDATE: `m2` is the row `m` after the event was applied; every column other
than status and updated_at is unchanged, unmatched rows are untouched, and the
matched row carries the new status and timestamp. -/
def lifecycleFrameAgrees (botId newStatus : String) (now : Nat) (m m2 : BlockMeeting) : Prop :=
  m2.block_id = m.block_id ∧ m2.recall_bot_id = m.recall_bot_id ∧
  m2.meeting_url = m.meeting_url ∧ m2.invited_by_user_id = m.invited_by_user_id ∧
  m2.full_transcript = m.full_transcript ∧ m2.started_at = m.started_at ∧
  m2.ended_at = m.ended_at ∧ m2.created_at = m.created_at ∧
  (m.recall_bot_id ≠ botId → m2 = m) ∧
  (m.recall_bot_id = botId → m2.status = newStatus ∧ m2.updated_at = now)

/-! ### Helper lemmas -/

theorem le_foldl_max (xs : List Int) :
    ∀ (x q : Int), (q = x ∨ q ∈ xs) → q ≤ xs.foldl max x := by
  induction xs with
  | nil =>
      intro x q hq
      simp only [List.not_mem_nil, or_false] at hq
      simp [hq]
  | cons y ys ih =>
      intro x q hq
      simp only [List.foldl_cons]
      rcases hq with rfl | hq
      · exact le_trans (le_max_left q y) (ih (max q y) (max q y) (Or.inl rfl))
      · rcases List.mem_cons.mp hq with rfl | hq
        · exact le_trans (le_max_right x q) (ih (max x q) (max x q) (Or.inl rfl))
        · exact ih (max x y) q (Or.inr hq)

theorem le_maxSeqOrder (bts : List BlockTurn) (blockId : Nat) :
    ∀ q ∈ seqOrdersFor bts blockId, q ≤ maxSeqOrder bts blockId := by
  intro q hq
  unfold maxSeqOrder
  cases h : seqOrdersFor bts blockId with
  | nil => rw [h] at hq; exact absurd hq (List.not_mem_nil q)
  | cons x xs =>
      rw [h] at hq
      exact le_foldl_max xs x q (by simpa [List.mem_cons] using hq)

theorem find?_append_of_none {α : Type} (p : α → Bool) (l₁ l₂ : List α)
    (h : l₁.find? p = none) : (l₁ ++ l₂).find? p = l₂.find? p := by
  induction l₁ with
  | nil => rfl
  | cons x xs ih =>
      rw [List.find?_cons] at h
      cases hp : p x with
      | true => rw [hp] at h; exact absurd h (by simp)
      | false =>
          rw [hp] at h
          rw [List.cons_append, List.find?_cons, hp]
          exact ih h

theorem any_eq_false_of_find?_none {α : Type} (p : α → Bool) (l : List α)
    (h : l.find? p = none) : l.any p = false := by
  rw [List.any_eq_false]
  intro x hx
  have := List.find?_eq_none.mp h x hx
  simpa using this

theorem PG.getOrCreate_isOk (st : PG.DBState) (blockId : Nat) (speakerName : String) :
    ∃ a st', PG.getOrCreateAttendee st blockId speakerName = Except.ok (a, st') := by
  unfold PG.getOrCreateAttendee
  cases hf : PG.findAttendee st blockId speakerName with
  | some a => exact ⟨a, st, rfl⟩
  | none =>
      have hany : st.block_attendees.any (attendeeKeyMatches blockId speakerName) = false :=
        any_eq_false_of_find?_none _ _ hf
      unfold PG.insertAttendeeRow
      rw [hany]
      exact ⟨_, _, rfl⟩

theorem PG.getOrCreate_frame (st : PG.DBState) (blockId : Nat) (speakerName : String)
    (a : BlockAttendee) (st' : PG.DBState)
    (h : PG.getOrCreateAttendee st blockId speakerName = Except.ok (a, st')) :
    st'.block_turns = st.block_turns ∧ st'.block_meetings = st.block_meetings ∧
    st'.turns = st.turns ∧ st'.next_turn_id = st.next_turn_id ∧
    st'.blocks = st.blocks ∧ st'.next_block_id = st.next_block_id := by
  unfold PG.getOrCreateAttendee PG.insertAttendeeRow at h
  split at h
  · simp only [Except.ok.injEq, Prod.mk.injEq] at h
    obtain ⟨-, rfl⟩ := h
    exact ⟨rfl, rfl, rfl, rfl, rfl, rfl⟩
  · split at h
    · simp at h
    · simp only [Except.ok.injEq, Prod.mk.injEq] at h
      obtain ⟨-, rfl⟩ := h
      exact ⟨rfl, rfl, rfl, rfl, rfl, rfl⟩

theorem PG.processTranscript_eq_none (st : PG.DBState) (ev : TranscriptEvent) (now : String)
    (hm : PG.findMeeting st ev.bot_id = none) :
    PG.processTranscript st ev now = st := by
  unfold PG.processTranscript
  rw [hm]

theorem PG.processTranscript_eq_noText (st : PG.DBState) (ev : TranscriptEvent) (now : String)
    (m : BlockMeeting) (a : BlockAttendee) (st1 : PG.DBState)
    (hm : PG.findMeeting st ev.bot_id = some m)
    (hg : PG.getOrCreateAttendee st m.block_id ev.speaker = Except.ok (a, st1))
    (ht : ev.text = none) :
    PG.processTranscript st ev now = st1 := by
  unfold PG.processTranscript
  rw [hm]
  simp only [hg, ht]

theorem PG.processTranscript_eq_placed (st : PG.DBState) (ev : TranscriptEvent) (now : String)
    (m : BlockMeeting) (a : BlockAttendee) (st1 : PG.DBState) (t : String)
    (hm : PG.findMeeting st ev.bot_id = some m)
    (hg : PG.getOrCreateAttendee st m.block_id ev.speaker = Except.ok (a, st1))
    (ht : ev.text = some t) :
    PG.processTranscript st ev now =
      { st1 with
        turns := st1.turns ++
          [{ turn_id := st1.next_turn_id, participant_id := a.id, content := t,
             source_type := "recall_bot", metadata_timestamp := ev.timestamp.getD now,
             metadata_bot_id := ev.bot_id }],
        next_turn_id := st1.next_turn_id + 1,
        block_turns := st1.block_turns ++
          [{ block_id := m.block_id, turn_id := st1.next_turn_id,
             sequence_order := maxSeqOrder st1.block_turns m.block_id + 1 }] } := by
  unfold PG.processTranscript
  rw [hm]
  simp only [hg, ht]

theorem seqOrdersFor_append (bts l2 : List BlockTurn) (blockId : Nat) :
    seqOrdersFor (bts ++ l2) blockId = seqOrdersFor bts blockId ++ seqOrdersFor l2 blockId := by
  unfold seqOrdersFor
  rw [List.filter_append, List.map_append]

theorem seqOrdersFor_singleton_match (bt : BlockTurn) (blockId : Nat)
    (h : (bt.block_id == blockId) = true) :
    seqOrdersFor [bt] blockId = [bt.sequence_order] := by
  simp [seqOrdersFor, List.filter, h]

theorem seqOrdersFor_singleton_nomatch (bt : BlockTurn) (blockId : Nat)
    (h : (bt.block_id == blockId) = false) :
    seqOrdersFor [bt] blockId = [] := by
  simp [seqOrdersFor, List.filter, h]

theorem PG.processTranscript_meetings (st : PG.DBState) (ev : TranscriptEvent) (now : String) :
    (PG.processTranscript st ev now).block_meetings = st.block_meetings := by
  cases hm : PG.findMeeting st ev.bot_id with
  | none => rw [PG.processTranscript_eq_none st ev now hm]
  | some m =>
      obtain ⟨a, st1, hg⟩ := PG.getOrCreate_isOk st m.block_id ev.speaker
      obtain ⟨hbt, hbm, htu, hnt, hbl, hnb⟩ := PG.getOrCreate_frame _ _ _ _ _ hg
      cases ht : ev.text with
      | none => rw [PG.processTranscript_eq_noText st ev now m a st1 hm hg ht]; exact hbm
      | some t => rw [PG.processTranscript_eq_placed st ev now m a st1 t hm hg ht]; exact hbm

theorem PG.positions_step_placed (st : PG.DBState) (ev : TranscriptEvent) (now : String)
    (b : Nat) (h : placedForBlock st b ev = true) :
    ∃ p, seqOrdersFor (PG.processTranscript st ev now).block_turns b =
           seqOrdersFor st.block_turns b ++ [p] ∧
         ∀ q ∈ seqOrdersFor st.block_turns b, q < p := by
  unfold placedForBlock at h
  cases hm : PG.findMeeting st ev.bot_id with
  | none => rw [hm] at h; simp at h
  | some m =>
      rw [hm] at h
      simp only [Bool.and_eq_true, beq_iff_eq, Option.isSome_iff_exists] at h
      obtain ⟨hb, t, ht⟩ := h
      obtain ⟨a, st1, hg⟩ := PG.getOrCreate_isOk st m.block_id ev.speaker
      obtain ⟨hbt, hbm, htu, hnt, hbl, hnb⟩ := PG.getOrCreate_frame _ _ _ _ _ hg
      rw [PG.processTranscript_eq_placed st ev now m a st1 t hm hg ht]
      refine ⟨maxSeqOrder st1.block_turns m.block_id + 1, ?_, ?_⟩
      · show seqOrdersFor (st1.block_turns ++ _) b = _
        rw [seqOrdersFor_append, seqOrdersFor_singleton_match _ _ (by simpa using hb), hbt]
      · intro q hq
        rw [hbt, hb]
        exact Int.lt_add_one_iff.mpr (le_maxSeqOrder st.block_turns b q hq)

theorem PG.positions_step_notPlaced (st : PG.DBState) (ev : TranscriptEvent) (now : String)
    (b : Nat) (h : placedForBlock st b ev = false) :
    seqOrdersFor (PG.processTranscript st ev now).block_turns b =
      seqOrdersFor st.block_turns b := by
  unfold placedForBlock at h
  cases hm : PG.findMeeting st ev.bot_id with
  | none => rw [PG.processTranscript_eq_none st ev now hm]
  | some m =>
      rw [hm] at h
      obtain ⟨a, st1, hg⟩ := PG.getOrCreate_isOk st m.block_id ev.speaker
      obtain ⟨hbt, hbm, htu, hnt, hbl, hnb⟩ := PG.getOrCreate_frame _ _ _ _ _ hg
      cases ht : ev.text with
      | none => rw [PG.processTranscript_eq_noText st ev now m a st1 hm hg ht, hbt]
      | some t =>
          rw [ht] at h
          simp only [Option.isSome_some, Bool.and_true] at h
          rw [PG.processTranscript_eq_placed st ev now m a st1 t hm hg ht]
          show seqOrdersFor (st1.block_turns ++ _) b = _
          rw [seqOrdersFor_append, seqOrdersFor_singleton_nomatch _ _ h,
              List.append_nil, hbt]

/-! ### Claim theorems -/

/-- C1: for every session and every sequence of turns appended to it by the
Transcript Sequencer (the PostgreSQL message handler), the Placement positions
recorded for that session are pairwise distinct and strictly increasing in
insertion order, regardless of turns interleaved from other sessions: the
positions appended for block `b` form a strictly increasing list, each new
position exceeds every pre-existing position of that block, and exactly one
position is appended per event that resolves to block `b` with content
present. -/
theorem sequencer_positions_strictly_increasing :
    ∀ (evs : List TranscriptEvent) (st : PG.DBState) (b : Nat) (now : String),
    ∃ newPos : List Int,
      seqOrdersFor (PG.processAll st evs now).block_turns b =
        seqOrdersFor st.block_turns b ++ newPos ∧
      newPos.Pairwise (· < ·) ∧
      (∀ q ∈ seqOrdersFor st.block_turns b, ∀ p ∈ newPos, q < p) ∧
      newPos.length = (evs.filter (fun e => placedForBlock st b e)).length := by
  intro evs
  induction evs with
  | nil =>
      intro st b now
      exact ⟨[], by simp [PG.processAll], List.Pairwise.nil, by simp, by simp⟩
  | cons e rest ih =>
      intro st b now
      obtain ⟨n', h1, h2, h3, h4⟩ := ih (PG.processTranscript st e now) b now
      have hstab : ∀ ev, placedForBlock (PG.processTranscript st e now) b ev =
          placedForBlock st b ev := by
        intro ev
        unfold placedForBlock PG.findMeeting
        rw [PG.processTranscript_meetings]
      have hfilter : (rest.filter fun e2 => placedForBlock (PG.processTranscript st e now) b e2) =
          rest.filter fun e2 => placedForBlock st b e2 :=
        List.filter_congr (fun x _ => hstab x)
      have hAll : PG.processAll st (e :: rest) now =
          PG.processAll (PG.processTranscript st e now) rest now := rfl
      cases hp : placedForBlock st b e with
      | false =>
          have hstep := PG.positions_step_notPlaced st e now b hp
          refine ⟨n', ?_, h2, ?_, ?_⟩
          · rw [hAll, h1, hstep]
          · intro q hq p2 hp2
            exact h3 q (by rw [hstep]; exact hq) p2 hp2
          · rw [h4, hfilter]
            simp [List.filter_cons, hp]
      | true =>
          obtain ⟨p, hstep, hlt⟩ := PG.positions_step_placed st e now b hp
          refine ⟨p :: n', ?_, ?_, ?_, ?_⟩
          · rw [hAll, h1, hstep, List.append_assoc]
            rfl
          · exact List.Pairwise.cons
              (fun p2 hp2 => h3 p (by rw [hstep]; exact List.mem_append_right _ (by simp)) p2 hp2)
              h2
          · intro q hq p2 hp2
            rcases List.mem_cons.mp hp2 with rfl | hp2
            · exact hlt q hq
            · exact h3 q (by rw [hstep]; exact List.mem_append_left _ hq) p2 hp2
          · rw [List.length_cons, h4, hfilter]
            simp [List.filter_cons, hp]

/-- C1 witness: the theorem instantiated on a concrete two-event stream for
session 1 of the sample state. -/
theorem sequencer_positions_strictly_increasing_witness :
    ∃ newPos : List Int,
      seqOrdersFor (PG.processAll pgSt1 [evDana, evDana] "t0").block_turns 1 =
        seqOrdersFor pgSt1.block_turns 1 ++ newPos ∧
      newPos.Pairwise (· < ·) ∧
      (∀ q ∈ seqOrdersFor pgSt1.block_turns 1, ∀ p ∈ newPos, q < p) ∧
      newPos.length = ([evDana, evDana].filter (fun e => placedForBlock pgSt1 1 e)).length :=
  sequencer_positions_strictly_increasing [evDana, evDana] pgSt1 1 "t0"

/-- C2: for every existing session, the PostgreSQL message handler assigns the
new turn a Placement position equal to one greater than the current maximum
Placement position stored for that session, and position 1 (the first integer)
when the session has no Placements yet. -/
theorem appendTurn_assigns_max_plus_one :
    ∀ (st : PG.DBState) (ev : TranscriptEvent) (now : String) (m : BlockMeeting) (t : String),
    PG.findMeeting st ev.bot_id = some m → ev.text = some t →
    (PG.processTranscript st ev now).block_turns =
      st.block_turns ++
        [{ block_id := m.block_id, turn_id := st.next_turn_id,
           sequence_order := maxSeqOrder st.block_turns m.block_id + 1 }] ∧
    (seqOrdersFor st.block_turns m.block_id = [] →
      maxSeqOrder st.block_turns m.block_id + 1 = 1) := by
  intro st ev now m t hm ht
  obtain ⟨a, st1, hg⟩ := PG.getOrCreate_isOk st m.block_id ev.speaker
  obtain ⟨hbt, hbm, htu, hnt, hbl, hnb⟩ := PG.getOrCreate_frame _ _ _ _ _ hg
  constructor
  · rw [PG.processTranscript_eq_placed st ev now m a st1 t hm hg ht]
    show st1.block_turns ++ _ = _
    rw [hbt, hnt]
  · intro he
    unfold maxSeqOrder
    rw [he]
    decide

/-- C2 witness: on the sample state with no placements, the first turn for
session 1 is placed at position 1 = max(empty)+1. -/
theorem appendTurn_assigns_max_plus_one_witness :
    (PG.processTranscript pgSt1 evDana "t0").block_turns =
      pgSt1.block_turns ++
        [{ block_id := meeting1.block_id, turn_id := pgSt1.next_turn_id,
           sequence_order := maxSeqOrder pgSt1.block_turns meeting1.block_id + 1 }] ∧
    (seqOrdersFor pgSt1.block_turns meeting1.block_id = [] →
      maxSeqOrder pgSt1.block_turns meeting1.block_id + 1 = 1) :=
  appendTurn_assigns_max_plus_one pgSt1 evDana "t0" meeting1 "hello" (by decide) rfl

/-- C3 (amended): a turn event whose textual content is missing fails the
NOT NULL constraint on `turns.content`, so no Turn row and no Placement row
attributable to it is created. -/
theorem missing_content_no_rows :
    ∀ (st : PG.DBState) (ev : TranscriptEvent) (now : String), ev.text = none →
    (PG.processTranscript st ev now).turns = st.turns ∧
    (PG.processTranscript st ev now).block_turns = st.block_turns := by
  intro st ev now ht
  cases hm : PG.findMeeting st ev.bot_id with
  | none => rw [PG.processTranscript_eq_none st ev now hm]; exact ⟨rfl, rfl⟩
  | some m =>
      obtain ⟨a, st1, hg⟩ := PG.getOrCreate_isOk st m.block_id ev.speaker
      obtain ⟨hbt, hbm, htu, hnt, hbl, hnb⟩ := PG.getOrCreate_frame _ _ _ _ _ hg
      rw [PG.processTranscript_eq_noText st ev now m a st1 hm hg ht]
      exact ⟨htu, hbt⟩

/-- C3 amended-theorem witness: an event without a text field mutates neither
the turns table nor the placements table. -/
theorem missing_content_no_rows_witness :
    (PG.processTranscript pgSt1 evNoText "t0").turns = pgSt1.turns ∧
    (PG.processTranscript pgSt1 evNoText "t0").block_turns = pgSt1.block_turns :=
  missing_content_no_rows pgSt1 evNoText "t0" rfl

/-- C3 counterexample: a turn event whose textual content is the empty string
is not rejected — the empty string satisfies the NOT NULL constraint — so a
Turn row and a Placement row for it do get created, contradicting the claim
that empty content leaves no rows. -/
theorem empty_content_creates_rows :
    (PG.processTranscript pgSt1 evEmptyText "t0").turns ≠ pgSt1.turns ∧
    (PG.processTranscript pgSt1 evEmptyText "t0").block_turns ≠ pgSt1.block_turns := by
  decide

theorem PG.applyWebhookUpdate_idem (botId newStatus : String) (now : Nat)
    (fetched : Option String) (m : BlockMeeting) :
    PG.applyWebhookUpdate botId newStatus now fetched
        (PG.applyWebhookUpdate botId newStatus now fetched m) =
      PG.applyWebhookUpdate botId newStatus now fetched m := by
  unfold PG.applyWebhookUpdate
  cases hb : m.recall_bot_id == botId with
  | false => simp [hb]
  | true =>
      cases hs : newStatus == "completed" with
      | false => simp [hb, hs]
      | true =>
          cases fetched with
          | none => simp [hb, hs]
          | some t => simp [hb, hs]

theorem PG.map_applyWebhookUpdate_idem (botId newStatus : String) (now : Nat)
    (fetched : Option String) (l : List BlockMeeting) :
    (l.map (PG.applyWebhookUpdate botId newStatus now fetched)).map
        (PG.applyWebhookUpdate botId newStatus now fetched) =
      l.map (PG.applyWebhookUpdate botId newStatus now fetched) := by
  induction l with
  | nil => rfl
  | cons x xs ih => simp only [List.map_cons, PG.applyWebhookUpdate_idem, ih]

theorem PG.map_applyWebhookUpdate_of_unmatched (botId newStatus : String) (now : Nat)
    (fetched : Option String) :
    ∀ (l : List BlockMeeting), (∀ m ∈ l, m.recall_bot_id ≠ botId) →
    l.map (PG.applyWebhookUpdate botId newStatus now fetched) = l := by
  intro l
  induction l with
  | nil => intro _; rfl
  | cons x xs ih =>
      intro h
      have hx : x.recall_bot_id ≠ botId := h x (List.mem_cons_self x xs)
      rw [List.map_cons, ih (fun m hm => h m (List.mem_cons_of_mem x hm))]
      congr 1
      unfold PG.applyWebhookUpdate
      simp [hx]

/-- C4 (amended): the webhook lifecycle update is idempotent up to wall-clock
reads: re-applying the identical (botId, status) event with the same event
time and the same transcript-fetch outcome leaves the stored state exactly as
after the first application.  (With a later wall-clock time the second
application refreshes updated_at, and ended_at for completed events, which is
what the counterexample exhibits.) -/
theorem webhook_idempotent_same_time :
    ∀ (st : PG.DBState) (ev : WebhookEvent) (now : Nat) (fetched : Option String),
    (PG.webhook (PG.webhook st ev now fetched).1 ev now fetched).1 =
      (PG.webhook st ev now fetched).1 := by
  intro st ev now fetched
  unfold PG.webhook
  cases hb : ev.bot_id with
  | none => simp
  | some b =>
      simp [PG.map_applyWebhookUpdate_idem]
      intro a _
      exact PG.applyWebhookUpdate_idem b ev.status now fetched a

/-- C4 counterexample: applying the identical lifecycle event a second time at
a later wall-clock instant does change the stored Meeting Record — the second
application overwrites updated_at with the later time — so the operation is
not idempotent in the exact-state sense the claim states. -/
theorem webhook_second_application_changes_state :
    (PG.webhook (PG.webhook pgSt1 evProgress 1 none).1 evProgress 2 none).1 ≠
      (PG.webhook pgSt1 evProgress 1 none).1 := by
  decide

/-- C8: a lifecycle event whose bot id matches no stored Meeting Record is a
non-fatal no-op: the handler answers 200 (no error is raised to the caller)
and the UPDATE matches zero rows, leaving all stored state unchanged. -/
theorem webhook_unknown_bot_noop :
    ∀ (st : PG.DBState) (botId newStatus : String) (now : Nat) (fetched : Option String),
    (∀ m ∈ st.block_meetings, m.recall_bot_id ≠ botId) →
    PG.webhook st { bot_id := some botId, status := newStatus } now fetched = (st, 200) := by
  intro st botId newStatus now fetched hnone
  simp only [PG.webhook]
  rw [PG.map_applyWebhookUpdate_of_unmatched botId newStatus now fetched st.block_meetings hnone]

/-- C8 witness: a completed event for an unknown bot leaves the sample state
untouched and answers 200. -/
theorem webhook_unknown_bot_noop_witness :
    PG.webhook pgSt1 { bot_id := some "nope", status := "completed" } 5 none = (pgSt1, 200) :=
  webhook_unknown_bot_noop pgSt1 "nope" "completed" 5 none (by decide)

/-- C10: a lifecycle event with a non-terminal status and a matching Meeting
Record modifies only the status and updated_at columns of the matched row:
every other column of that row, every other meeting row, and all other tables
are unchanged. -/
theorem webhook_non_terminal_frame :
    ∀ (st : PG.DBState) (botId newStatus : String) (now : Nat) (fetched : Option String),
    newStatus ≠ "completed" →
    (PG.webhook st { bot_id := some botId, status := newStatus } now fetched).1.blocks = st.blocks ∧
    (PG.webhook st { bot_id := some botId, status := newStatus } now fetched).1.block_attendees =
      st.block_attendees ∧
    (PG.webhook st { bot_id := some botId, status := newStatus } now fetched).1.turns = st.turns ∧
    (PG.webhook st { bot_id := some botId, status := newStatus } now fetched).1.block_turns =
      st.block_turns ∧
    List.Forall₂ (lifecycleFrameAgrees botId newStatus now) st.block_meetings
      (PG.webhook st { bot_id := some botId, status := newStatus } now fetched).1.block_meetings := by
  intro st botId newStatus now fetched hns
  have hs : (newStatus == "completed") = false := by simpa using hns
  refine ⟨rfl, rfl, rfl, rfl, ?_⟩
  simp only [PG.webhook]
  rw [List.forall₂_map_right_iff, List.forall₂_same]
  intro x hx
  by_cases hb : x.recall_bot_id = botId
  · simp [lifecycleFrameAgrees, PG.applyWebhookUpdate, hb, hs]
  · simp [lifecycleFrameAgrees, PG.applyWebhookUpdate, hb]

/-- C10 witness: an in_progress event for bot-1 on the sample state keeps all
other tables and all frame columns of the meeting row unchanged. -/
theorem webhook_non_terminal_frame_witness :
    (PG.webhook pgSt1 { bot_id := some "bot-1", status := "in_progress" } 3 none).1.blocks =
      pgSt1.blocks ∧
    (PG.webhook pgSt1 { bot_id := some "bot-1", status := "in_progress" } 3 none).1.block_attendees =
      pgSt1.block_attendees ∧
    (PG.webhook pgSt1 { bot_id := some "bot-1", status := "in_progress" } 3 none).1.turns =
      pgSt1.turns ∧
    (PG.webhook pgSt1 { bot_id := some "bot-1", status := "in_progress" } 3 none).1.block_turns =
      pgSt1.block_turns ∧
    List.Forall₂ (lifecycleFrameAgrees "bot-1" "in_progress" 3) pgSt1.block_meetings
      (PG.webhook pgSt1 { bot_id := some "bot-1", status := "in_progress" } 3 none).1.block_meetings :=
  webhook_non_terminal_frame pgSt1 "bot-1" "in_progress" 3 none (by decide)

/-- C5 (divergence at the failing input): when the block_meetings INSERT fails
after the block INSERT succeeded, the PostgreSQL variant of `/api/create-bot`
leaves the freshly created block in place with no Meeting Record — an orphan
Session — whereas the Supabase variant deletes the block it just created.  The
PostgreSQL variant therefore does not implement the required compensating
delete. -/
theorem createBot_meeting_failure_orphan :
    (∃ b ∈ (PG.createBotPersist pgSt0 "bot-9" "https://call/x" none (some "Retro") true 0).1.blocks,
      ∀ m ∈ (PG.createBotPersist pgSt0 "bot-9" "https://call/x" none (some "Retro") true 0).1.block_meetings,
        m.block_id ≠ b.block_id) ∧
    (SB.createBotPersist sbSt0 "bot-9" "https://call/x" none (some "Retro") true 0).1.blocks =
      sbSt0.blocks := by
  decide

/-- C6 counterexample: under the racing interleaving of two concurrent
`getOrCreateAttendee` calls for the same (session, label) on a state where the
label is new, the second insert is a plain INSERT and fails with a
duplicate-key error — it is not a conflict-tolerant insert returning the
existing Attendee, contrary to the mechanism the claim asserts. -/
theorem race_loser_gets_error :
    (PG.racedGetOrCreate pgSt1 1 "Dana").1 = Except.ok attendeeDana ∧
    (PG.racedGetOrCreate pgSt1 1 "Dana").2.1 =
      Except.error "duplicate key value violates unique constraint" :=
  ⟨rfl, rfl⟩

/-- C6 (amended): the racing interleaving never leaves two Attendee rows for
one (session, name) key — the unique index blocks the duplicate — but the
losing call receives a duplicate-key error rather than the existing row. -/
theorem race_preserves_uniqueness :
    ∀ (st : PG.DBState) (blockId : Nat) (speakerName : String),
    (attendeesForKey st blockId speakerName).length ≤ 1 →
    (attendeesForKey (PG.racedGetOrCreate st blockId speakerName).2.2 blockId speakerName).length ≤ 1 ∧
    (PG.findAttendee st blockId speakerName = none →
      ∃ e, (PG.racedGetOrCreate st blockId speakerName).2.1 = Except.error e) := by
  intro st blockId speakerName hcount
  cases hf : PG.findAttendee st blockId speakerName with
  | some a =>
      constructor
      · simp only [PG.racedGetOrCreate, hf]
        exact hcount
      · intro h
        exact absurd h (by simp)
  | none =>
      have hany : st.block_attendees.any (attendeeKeyMatches blockId speakerName) = false :=
        any_eq_false_of_find?_none _ _ hf
      have hfilter : st.block_attendees.filter (attendeeKeyMatches blockId speakerName) = [] := by
        rw [List.filter_eq_nil_iff]
        intro a ha
        have := List.find?_eq_none.mp hf a ha
        simpa using this
      constructor
      · simp only [PG.racedGetOrCreate, hf, PG.insertAttendeeRow, hany]
        simp [attendeesForKey, List.filter_append, hfilter, attendeeKeyMatches,
              List.any_append, hany]
      · intro _
        refine ⟨"duplicate key value violates unique constraint", ?_⟩
        simp only [PG.racedGetOrCreate, hf, PG.insertAttendeeRow, hany]
        simp [List.any_append, attendeeKeyMatches, hany]

/-- C6 amended-theorem witness: racing two resolutions of the fresh label Dana
on the sample state leaves a single Dana row and hands the loser a
duplicate-key error. -/
theorem race_preserves_uniqueness_witness :
    (attendeesForKey (PG.racedGetOrCreate pgSt1 1 "Dana").2.2 1 "Dana").length ≤ 1 ∧
    (PG.findAttendee pgSt1 1 "Dana" = none →
      ∃ e, (PG.racedGetOrCreate pgSt1 1 "Dana").2.1 = Except.error e) :=
  race_preserves_uniqueness pgSt1 1 "Dana" (by decide)

/-- C7: when a speaker label is new in a session, `getOrCreateAttendee`
creates the Attendee with narrative seeded from the label template, zero
accumulated speaking time and no linked user; resolving the same label a
second time (sequentially) returns the very same Attendee row and mutates
nothing. -/
theorem resolve_twice_same_attendee :
    ∀ (st : PG.DBState) (blockId : Nat) (speakerName : String) (a : BlockAttendee)
      (st1 : PG.DBState),
    PG.findAttendee st blockId speakerName = none →
    PG.getOrCreateAttendee st blockId speakerName = Except.ok (a, st1) →
    a.story = some (speakerName ++ " joined the meeting.") ∧
    a.speaking_time_seconds = 0 ∧ a.user_id = none ∧
    PG.getOrCreateAttendee st1 blockId speakerName = Except.ok (a, st1) := by
  intro st blockId speakerName a st1 hf hg
  have hany : st.block_attendees.any (attendeeKeyMatches blockId speakerName) = false :=
    any_eq_false_of_find?_none _ _ hf
  unfold PG.getOrCreateAttendee PG.insertAttendeeRow at hg
  simp only [hf, hany, Bool.false_eq_true, if_false, Except.ok.injEq, Prod.mk.injEq] at hg
  obtain ⟨h1, h2⟩ := hg
  subst h1
  subst h2
  refine ⟨rfl, rfl, rfl, ?_⟩
  unfold PG.getOrCreateAttendee
  have hfind : PG.findAttendee
      { st with
        block_attendees := st.block_attendees ++
          [{ id := st.next_attendee_id, block_id := blockId, name := speakerName,
             user_id := none, story := some (speakerName ++ " joined the meeting."),
             speaking_time_seconds := 0 }],
        next_attendee_id := st.next_attendee_id + 1 } blockId speakerName =
      some { id := st.next_attendee_id, block_id := blockId, name := speakerName,
             user_id := none, story := some (speakerName ++ " joined the meeting."),
             speaking_time_seconds := 0 } := by
    unfold PG.findAttendee
    show (st.block_attendees ++ [_]).find? _ = _
    rw [find?_append_of_none _ _ _ hf]
    simp [List.find?, attendeeKeyMatches]
  rw [hfind]

/-- C7 witness: resolving Dana on the sample state creates the seeded row;
resolving Dana again on the resulting state returns the same row and the same
state. -/
theorem resolve_twice_same_attendee_witness :
    attendeeDana.story = some ("Dana" ++ " joined the meeting.") ∧
    attendeeDana.speaking_time_seconds = 0 ∧ attendeeDana.user_id = none ∧
    PG.getOrCreateAttendee pgStDana 1 "Dana" = Except.ok (attendeeDana, pgStDana) :=
  resolve_twice_same_attendee pgSt1 1 "Dana" attendeeDana pgStDana rfl rfl

theorem SB.sbGetOrCreate_isOk (st : SB.DBState) (blockId : Nat) (speakerName : String) :
    ∃ a st', SB.getOrCreateAttendee st blockId speakerName = Except.ok (a, st') := by
  unfold SB.getOrCreateAttendee
  cases hf : SB.findAttendee st blockId speakerName with
  | some a => exact ⟨a, st, rfl⟩
  | none =>
      have hany : st.block_attendees.any (attendeeKeyMatches blockId speakerName) = false :=
        any_eq_false_of_find?_none _ _ hf
      unfold SB.insertAttendeeRow
      rw [hany]
      exact ⟨_, _, rfl⟩

theorem SB.sbGetOrCreate_frame (st : SB.DBState) (blockId : Nat) (speakerName : String)
    (a : BlockAttendee) (st' : SB.DBState)
    (h : SB.getOrCreateAttendee st blockId speakerName = Except.ok (a, st')) :
    st'.block_turns = st.block_turns ∧ st'.next_turn_id = st.next_turn_id := by
  unfold SB.getOrCreateAttendee SB.insertAttendeeRow at h
  split at h
  · simp only [Except.ok.injEq, Prod.mk.injEq] at h
    obtain ⟨-, rfl⟩ := h
    exact ⟨rfl, rfl⟩
  · split at h
    · simp at h
    · simp only [Except.ok.injEq, Prod.mk.injEq] at h
      obtain ⟨-, rfl⟩ := h
      exact ⟨rfl, rfl⟩

theorem SB.sbProcessTranscript_eq_placed (st : SB.DBState) (ev : TranscriptEvent) (now : String)
    (m : BlockMeeting) (a : BlockAttendee) (st1 : SB.DBState) (t : String)
    (hm : SB.findMeeting st ev.bot_id = some m)
    (hg : SB.getOrCreateAttendee st m.block_id ev.speaker = Except.ok (a, st1))
    (ht : ev.text = some t) :
    SB.processTranscript st ev now =
      { st1 with
        turns := st1.turns ++
          [{ turn_id := st1.next_turn_id, participant_id := a.id, turn_text := t,
             source_type := "recall_bot", turn_timestamp := ev.timestamp.getD now,
             client_id := 1 }],
        next_turn_id := st1.next_turn_id + 1,
        block_turns := st1.block_turns ++
          [{ block_id := m.block_id, turn_id := st1.next_turn_id,
             sequence_order := ev.sequence.getD 0 }] } := by
  unfold SB.processTranscript
  rw [hm]
  simp only [hg, ht]

/-- C9 (amended): the two turn-ingestion implementations do not assign the
same Placement positions.  For a placed event, the PostgreSQL variant records
one greater than the stored maximum position of the session, while the
Supabase variant records the sequence hint of the event, defaulting to 0 when
absent; the positions coincide only when the hint happens to equal max+1. -/
theorem variants_position_characterization :
    ∀ (stP : PG.DBState) (stS : SB.DBState) (ev : TranscriptEvent) (now1 now2 : String)
      (mP mS : BlockMeeting) (t : String),
    PG.findMeeting stP ev.bot_id = some mP →
    SB.findMeeting stS ev.bot_id = some mS →
    ev.text = some t →
    (PG.processTranscript stP ev now1).block_turns =
      stP.block_turns ++
        [{ block_id := mP.block_id, turn_id := stP.next_turn_id,
           sequence_order := maxSeqOrder stP.block_turns mP.block_id + 1 }] ∧
    (SB.processTranscript stS ev now2).block_turns =
      stS.block_turns ++
        [{ block_id := mS.block_id, turn_id := stS.next_turn_id,
           sequence_order := ev.sequence.getD 0 }] := by
  intro stP stS ev now1 now2 mP mS t hmP hmS ht
  constructor
  · obtain ⟨a, st1, hg⟩ := PG.getOrCreate_isOk stP mP.block_id ev.speaker
    obtain ⟨hbt, hbm, htu, hnt, hbl, hnb⟩ := PG.getOrCreate_frame _ _ _ _ _ hg
    rw [PG.processTranscript_eq_placed stP ev now1 mP a st1 t hmP hg ht]
    show st1.block_turns ++ _ = _
    rw [hbt, hnt]
  · obtain ⟨a, st1, hg⟩ := SB.sbGetOrCreate_isOk stS mS.block_id ev.speaker
    obtain ⟨hbt, hnt⟩ := SB.sbGetOrCreate_frame _ _ _ _ _ hg
    rw [SB.sbProcessTranscript_eq_placed stS ev now2 mS a st1 t hmS hg ht]
    show st1.block_turns ++ _ = _
    rw [hbt, hnt]

/-- C9 amended-theorem witness: on the sample single-meeting states, the first
placed turn gets position max+1 in the PostgreSQL variant and hint-or-0 in the
Supabase variant. -/
theorem variants_position_characterization_witness :
    (PG.processTranscript pgSt1 evDana "t0").block_turns =
      pgSt1.block_turns ++
        [{ block_id := meeting1.block_id, turn_id := pgSt1.next_turn_id,
           sequence_order := maxSeqOrder pgSt1.block_turns meeting1.block_id + 1 }] ∧
    (SB.processTranscript sbSt1 evDana "t0").block_turns =
      sbSt1.block_turns ++
        [{ block_id := meeting1.block_id, turn_id := sbSt1.next_turn_id,
           sequence_order := evDana.sequence.getD 0 }] :=
  variants_position_characterization pgSt1 sbSt1 evDana "t0" "t0" meeting1 meeting1 "hello"
    (by decide) (by decide) rfl

/-- C9 counterexample: on the same one-event stream for the same session (no
sequence hint, no stored placements), the PostgreSQL variant records position
1 while the Supabase variant records position 0 — the two implementations do
not assign the same Placement position. -/
theorem variants_assign_different_positions :
    seqOrdersFor (PG.processTranscript pgSt1 evDana "t0").block_turns 1 = [1] ∧
    seqOrdersFor (SB.processTranscript sbSt1 evDana "t0").block_turns 1 = [0] ∧
    seqOrdersFor (PG.processTranscript pgSt1 evDana "t0").block_turns 1 ≠
      seqOrdersFor (SB.processTranscript sbSt1 evDana "t0").block_turns 1 := by
  decide
